import Mathlib

/-!
# Verification of the kuta session/credential core

A shallow embedding of the session lifecycle orchestrator of the kuta
authentication library (`services.SessionManager`, its in-memory cache
collaborators, the nanoid identifier generator's mask computation and the
Argon2 password-hash decoder), together with theorems checking the
natural-language specification against it.

Modelling conventions:
* Go `time.Time` / `time.Duration` values are integer nanosecond counts
  (`Int`); `a.After(b)` is `b < a` and `time.Since(t) > ttl` is
  `ttl < now - t`.
* Go maps are association lists; `m[k] = v` replaces any previous binding,
  `delete(m, k)` removes it, and the arbitrary entry visited first by
  `for k := range m` is the head of the list.
* `crypto.HashToken` (a SHA-256 hex digest) is kept abstract as a function
  parameter `hashFn`; theorems that need distinct digests for distinct
  tokens take that as an explicit hypothesis.
* The `Storage` collaborator is the repository's own
  `FakeSessionStorage` (services fake), whose lookup/delete outcomes are
  deterministic; a run of it never fails other than by reporting
  not-found, which is the "Storage succeeds" regime of the spec.
* The `Cache` collaborator is the repository's own `FakeCache`, whose
  injectable error flags model cache failures: a flagged call returns an
  error and has no effect.
-/

namespace Kuta


/-- Go map lookup `v, ok := m[k]` over an association list. -/
def lookupS {α : Type} : List (String × α) → String → Option α
  | [], _ => none
  | (k', v) :: rest, k => if k' = k then some v else lookupS rest k

/-- Go map removal `delete(m, k)`. -/
def eraseS {α : Type} : List (String × α) → String → List (String × α)
  | [], _ => []
  | p :: rest, k => if p.1 = k then eraseS rest k else p :: eraseS rest k

/-- Go map assignment `m[k] = v` (replaces any previous binding). -/
def insertS {α : Type} (m : List (String × α)) (k : String) (v : α) :
    List (String × α) :=
  (k, v) :: eraseS m k

theorem lookupS_eraseS {α : Type} (m : List (String × α)) (k k' : String) :
    lookupS (eraseS m k) k' = if k = k' then none else lookupS m k' := by
  induction m with
  | nil => simp [eraseS, lookupS]
  | cons p rest ih =>
      simp only [eraseS]
      by_cases hp : p.1 = k
      · rw [if_pos hp, ih]
        by_cases hk : k = k'
        · simp [hk]
        · have hpk' : p.1 ≠ k' := fun hc => hk (hp.symm.trans hc)
          simp [lookupS, hk, hpk']
      · rw [if_neg hp]
        by_cases hk : k = k'
        · subst hk
          simp [lookupS, ih, hp]
        · by_cases hpk' : p.1 = k' <;> simp [lookupS, ih, hk, hpk']

theorem lookupS_insertS {α : Type} (m : List (String × α)) (k k' : String) (v : α) :
    lookupS (insertS m k v) k' = if k = k' then some v else lookupS m k' := by
  by_cases hk : k = k' <;> simp [insertS, lookupS, lookupS_eraseS, hk]

theorem eraseS_length_le {α : Type} (m : List (String × α)) (k : String) :
    (eraseS m k).length ≤ m.length := by
  induction m with
  | nil => simp [eraseS]
  | cons p rest ih =>
      simp only [eraseS]
      split
      · exact ih.trans (Nat.le_succ _)
      · simpa using ih

/-- `core.Session`: the persisted session record. -/
structure Session where
  id : String
  userID : String
  tokenHash : String
  ipAddress : String
  userAgent : String
  expiresAt : Int
  createdAt : Int
  updatedAt : Int
deriving DecidableEq, Repr

/-- The error values of `core/errors.go` and the services fakes that the
session-manager paths can produce. -/
inductive Err where
  /-- `core.ErrInvalidToken` -/
  | invalidToken
  /-- `core.ErrSessionNotFound` -/
  | sessionNotFound
  /-- `core.ErrSessionExpired` -/
  | sessionExpired
  /-- `core.ErrUserNotFound` -/
  | userNotFound
  /-- the anonymous `errors.New("session not found")` returned by
  `FakeSessionStorage.GetSessionByHash` / `GetSessionByID` on a miss -/
  | storageNotFound
  /-- `core.ErrCacheNotFound` -/
  | cacheNotFound
  /-- an injected cache failure (`getErr`/`setErr`/`delErr`/`clearErr`) -/
  | cacheFailure
deriving DecidableEq, Repr

/-- `services.FakeCache`: a map from token digest to session plus
injectable error flags; a flagged call errors and has no effect. -/
structure FakeCache where
  cache : List (String × Session)
  getErr : Bool
  setErr : Bool
  delErr : Bool
  clearErr : Bool
  hits : Int
  misses : Int
deriving DecidableEq, Repr

/-- `FakeCache.Get`. -/
def FakeCache.get (c : FakeCache) (tokenHash : String) :
    Except Err Session × FakeCache :=
  if c.getErr then (.error .cacheFailure, c)
  else
    match lookupS c.cache tokenHash with
    | none => (.error .cacheNotFound, { c with misses := c.misses + 1 })
    | some s => (.ok s, { c with hits := c.hits + 1 })

/-- `FakeCache.Set`. -/
def FakeCache.set (c : FakeCache) (tokenHash : String) (s : Session) :
    Except Err Unit × FakeCache :=
  if c.setErr then (.error .cacheFailure, c)
  else (.ok (), { c with cache := insertS c.cache tokenHash s })

/-- `FakeCache.Delete`. -/
def FakeCache.delete (c : FakeCache) (tokenHash : String) :
    Except Err Unit × FakeCache :=
  if c.delErr then (.error .cacheFailure, c)
  else (.ok (), { c with cache := eraseS c.cache tokenHash })

/-- `FakeCache.Clear`. -/
def FakeCache.clear (c : FakeCache) : Except Err Unit × FakeCache :=
  if c.clearErr then (.error .cacheFailure, c)
  else (.ok (), { c with cache := [] })

/-- `services.FakeSessionStorage`: sessions keyed by token digest. -/
abbrev Storage := List (String × Session)

/-- `FakeSessionStorage.GetSessionByHash` (a miss is the anonymous
"session not found" error, modelled by `Option.none`). -/
def Storage.getSessionByHash (st : Storage) (tokenHash : String) : Option Session :=
  lookupS st tokenHash

/-- `FakeSessionStorage.GetSessionByID`: first entry whose session id
matches. -/
def Storage.getSessionByID (st : Storage) (id : String) : Option Session :=
  (st.find? (fun p => p.2.id = id)).map Prod.snd

/-- `FakeSessionStorage.DeleteSessionByHash`: `core.ErrSessionNotFound`
when absent. -/
def Storage.deleteSessionByHash (st : Storage) (tokenHash : String) :
    Except Err Storage :=
  match lookupS st tokenHash with
  | none => .error .sessionNotFound
  | some _ => .ok (eraseS st tokenHash)

/-- Remove the first entry whose session id matches. -/
def Storage.eraseFirstByID : Storage → String → Storage
  | [], _ => []
  | p :: rest, id => if p.2.id = id then rest else p :: Storage.eraseFirstByID rest id

/-- `FakeSessionStorage.DeleteSessionByID`: deletes the first matching
entry, `core.ErrSessionNotFound` when none matches. -/
def Storage.deleteSessionByID (st : Storage) (id : String) : Except Err Storage :=
  if st.any (fun p => p.2.id = id) then .ok (Storage.eraseFirstByID st id)
  else .error .sessionNotFound

/-- `FakeSessionStorage.DeleteUserSessions`: removes every session owned
by `userID` and counts the removals. -/
def Storage.deleteUserSessions (st : Storage) (userID : String) : Nat × Storage :=
  (st.countP (fun p => p.2.userID = userID),
   st.filter (fun p => p.2.userID ≠ userID))

/-- `services.SessionManager` state: the storage collaborator plus the
optional cache (`nil` cache = caching disabled). -/
structure SMState where
  storage : Storage
  cache : Option FakeCache
deriving DecidableEq, Repr

/-- `services.SessionManager` configuration: `core.SessionConfig.MaxAge`
plus the abstracted `crypto.HashToken` digest function. -/
structure SMEnv where
  maxAge : Int
  hashFn : String → String

/-- `core.CreateSessionResult`. -/
structure CreateSessionResult where
  session : Session
  token : String
deriving DecidableEq, Repr

/-- `core.RefreshResult`. -/
structure RefreshResult where
  session : Session
  token : String
deriving DecidableEq, Repr

/-- `SessionManager.Create`. The generated raw token and nanoid session
id are oracle inputs (the Go code draws them from the random source) and
`now` is the `time.Now()` sample. -/
def SMEnv.create (env : SMEnv) (st : SMState) (now : Int)
    (rawToken sessionID userID ip userAgent : String) :
    CreateSessionResult × SMState :=
  let h := env.hashFn rawToken
  let session : Session :=
    { id := sessionID, userID := userID, tokenHash := h,
      ipAddress := ip, userAgent := userAgent,
      createdAt := now, updatedAt := now, expiresAt := now + env.maxAge }
  let storage' := insertS st.storage h session
  match st.cache with
  | none => (⟨session, rawToken⟩, ⟨storage', none⟩)
  | some c =>
      let r := c.set h session
      (⟨session, rawToken⟩, ⟨storage', some r.2⟩)

/-- The storage-read tail of `SessionManager.Verify` (cache miss or no
cache configured). -/
def SMEnv.verifyFromStorage (env : SMEnv) (st : SMState) (now : Int)
    (tokenHash : String) (cOpt : Option FakeCache) :
    Except Err Session × SMState :=
  match Storage.getSessionByHash st.storage tokenHash with
  | none => (.error .storageNotFound, { st with cache := cOpt })
  | some s =>
      if s.expiresAt < now then (.error .sessionExpired, { st with cache := cOpt })
      else
        match cOpt with
        | none => (.ok s, { st with cache := none })
        | some c =>
            let r := c.set tokenHash s
            (.ok s, { st with cache := some r.2 })

/-- `SessionManager.Verify`. -/
def SMEnv.verify (env : SMEnv) (st : SMState) (now : Int) (token : String) :
    Except Err Session × SMState :=
  if token = "" then (.error .invalidToken, st)
  else
    let h := env.hashFn token
    match st.cache with
    | none => env.verifyFromStorage st now h none
    | some c =>
        match c.get h with
        | (.ok s, c1) =>
            if s.expiresAt < now then
              let r := c1.delete h
              (.error .sessionExpired, { st with cache := some r.2 })
            else (.ok s, { st with cache := some c1 })
        | (.error _, c1) => env.verifyFromStorage st now h (some c1)

/-- `SessionManager.Destroy`. -/
def SMEnv.destroy (env : SMEnv) (st : SMState) (token : String) :
    Except Err Unit × SMState :=
  if token = "" then (.error .invalidToken, st)
  else
    let h := env.hashFn token
    match Storage.deleteSessionByHash st.storage h with
    | .error e => (.error e, st)
    | .ok storage' =>
        match st.cache with
        | none => (.ok (), ⟨storage', none⟩)
        | some c =>
            let r := c.delete h
            (.ok (), ⟨storage', some r.2⟩)

/-- `SessionManager.DestroyBySessionID`. -/
def SMEnv.destroyBySessionID (env : SMEnv) (st : SMState) (sessionID : String) :
    Except Err Unit × SMState :=
  if sessionID = "" then (.error .sessionNotFound, st)
  else
    let st1 : SMState :=
      match st.cache with
      | none => st
      | some c =>
          match Storage.getSessionByID st.storage sessionID with
          | none => st
          | some s =>
              let r := c.delete s.tokenHash
              { st with cache := some r.2 }
    match Storage.deleteSessionByID st1.storage sessionID with
    | .error e => (.error e, st1)
    | .ok storage' => (.ok (), { st1 with storage := storage' })

/-- `SessionManager.DestroyAllUserSessions`. -/
def SMEnv.destroyAllUserSessions (env : SMEnv) (st : SMState) (userID : String) :
    Except Err Nat × SMState :=
  if userID = "" then (.error .userNotFound, st)
  else
    let r := Storage.deleteUserSessions st.storage userID
    match st.cache with
    | none => (.ok r.1, ⟨r.2, none⟩)
    | some c =>
        if 0 < r.1 then
          let rc := c.clear
          (.ok r.1, ⟨r.2, some rc.2⟩)
        else (.ok r.1, ⟨r.2, some c⟩)

/-- `SessionManager.Refresh`. `nowV`/`nowC` are the `time.Now()` samples
taken inside the inner `Verify` and `Create`; the fresh raw token and
session id are oracle inputs. -/
def SMEnv.refresh (env : SMEnv) (st : SMState) (nowV nowC : Int)
    (token newToken newSessionID : String) :
    Except Err RefreshResult × SMState :=
  if token = "" then (.error .invalidToken, st)
  else
    match env.verify st nowV token with
    | (.error e, st1) => (.error e, st1)
    | (.ok oldSession, st1) =>
        match env.destroy st1 token with
        | (.error e, st2) => (.error e, st2)
        | (.ok _, st2) =>
            let r := env.create st2 nowC newToken newSessionID
              oldSession.userID oldSession.ipAddress oldSession.userAgent
            (.ok ⟨r.1.session, r.1.token⟩, r.2)

/-! ## `pkg/cache`: the bounded, TTL-expiring in-memory session cache -/

/-- `cache.cachedRecord`. -/
structure CachedRecord where
  session : Session
  cachedAt : Int
deriving DecidableEq, Repr

/-- `core.CacheConfig`. -/
structure CacheConfig where
  ttl : Int
  maxSize : Int
deriving DecidableEq, Repr

/-- `cache.InMemoryCache`: map, configuration and statistics counters. -/
structure InMemoryCache where
  cache : List (String × CachedRecord)
  ttl : Int
  maxSize : Int
  hits : Int
  misses : Int
  sets : Int
  deletes : Int
  evictions : Int
deriving DecidableEq, Repr

/-- Go `5 * time.Minute` in nanoseconds. -/
def fiveMinutes : Int := 300000000000

/-- `cache.NewInMemoryCache`: zero TTL defaults to five minutes, zero
max size defaults to 500. -/
def NewInMemoryCache (c : CacheConfig) : InMemoryCache :=
  { cache := []
    ttl := if c.ttl = 0 then fiveMinutes else c.ttl
    maxSize := if c.maxSize = 0 then 500 else c.maxSize
    hits := 0, misses := 0, sets := 0, deletes := 0, evictions := 0 }

/-- `InMemoryCache.Delete`: removes the entry and counts a delete only
when something was present; never fails. -/
def InMemoryCache.delete (c : InMemoryCache) (tokenHash : String) : InMemoryCache :=
  match lookupS c.cache tokenHash with
  | some _ => { c with cache := eraseS c.cache tokenHash, deletes := c.deletes + 1 }
  | none => c

/-- `InMemoryCache.Get`: a missing key counts a miss; a present but
TTL-expired record counts a miss and is removed via `Delete`; a fresh
record counts a hit and is returned. -/
def InMemoryCache.get (c : InMemoryCache) (now : Int) (tokenHash : String) :
    Except Err Session × InMemoryCache :=
  match lookupS c.cache tokenHash with
  | none => (.error .cacheNotFound, { c with misses := c.misses + 1 })
  | some record =>
      if c.ttl < now - record.cachedAt then
        (.error .cacheNotFound,
         InMemoryCache.delete { c with misses := c.misses + 1 } tokenHash)
      else (.ok record.session, { c with hits := c.hits + 1 })

/-- `InMemoryCache.Set`: when the map is at capacity, the first entry
encountered is evicted (counting an eviction) before inserting; always
counts a set. -/
def InMemoryCache.set (c : InMemoryCache) (now : Int) (tokenHash : String)
    (s : Session) : InMemoryCache :=
  let evicted : List (String × CachedRecord) × Int :=
    if c.maxSize ≤ (c.cache.length : Int) then
      match c.cache with
      | [] => ([], c.evictions)
      | _ :: rest => (rest, c.evictions + 1)
    else (c.cache, c.evictions)
  { c with
    cache := insertS evicted.1 tokenHash ⟨s, now⟩
    evictions := evicted.2
    sets := c.sets + 1 }

/-- `InMemoryCache.Clear`: drops every entry, keeps the counters. -/
def InMemoryCache.clear (c : InMemoryCache) : InMemoryCache :=
  { c with cache := [] }

/-- `InMemoryCache.Len`. -/
def InMemoryCache.len (c : InMemoryCache) : Nat :=
  c.cache.length

/-! ## `pkg/crypto/nanoid.go`: identifier-generator mask computation -/

/-- `crypto.maxAlphabetSize`. -/
def maxAlphabetSize : Nat := 255

/-- The loop of `crypto.getMask`: starting at `i`, with `fuel` iterations
remaining of the loop `for i := 1; i <= 8; i++`, return `(2 << i) - 1` at
the first `i` with `(2 << i) - 1 > alphabetLen - 1`, falling back to 255
when the loop finishes. -/
def getMaskFrom (alphabetLen : Nat) : Nat → Nat → Nat
  | _, 0 => maxAlphabetSize
  | i, fuel + 1 =>
      if alphabetLen - 1 < 2 ^ (i + 1) - 1 then 2 ^ (i + 1) - 1
      else getMaskFrom alphabetLen (i + 1) fuel

/-- `crypto.getMask` (`2 << uint(i)` is `2 ^ (i + 1)`; the loop runs for
`i = 1, ..., 8`). -/
def getMask (alphabetLen : Nat) : Nat :=
  getMaskFrom alphabetLen 1 8

/-- `2 ^ k - 1`, the form the specification requires of the mask. -/
def pow2m1 (k : Nat) : Nat := 2 ^ k - 1

/-- Modelled from the spec: "the smallest value of form `2^k − 1` that is
`≥ alphabetLength − 1`" — the least value of that form at least `bound`
(candidates up to `k = 15` cover every alphabet length the generator
accepts). -/
def smallestMaskGE (bound : Nat) : Nat :=
  (((List.range 16).map pow2m1).filter (fun m => bound ≤ m)).headD 0

/-- The strict variant actually computed by the code: the least value of
form `2^k − 1` strictly greater than `bound`. -/
def smallestMaskGT (bound : Nat) : Nat :=
  (((List.range 16).map pow2m1).filter (fun m => bound < m)).headD 0

/-! ## `core/password.go`: Argon2 encoded-hash decoding and verification -/

/-- `strings.Split(s, sep)` for a single-character separator, over the
character list of the string. -/
def splitChar (sep : Char) : List Char → List (List Char)
  | [] => [[]]
  | c :: rest =>
      let r := splitChar sep rest
      if c = sep then [] :: r
      else (c :: r.headD []) :: r.tail

/-- Decimal digit value. -/
def digitVal (c : Char) : Option Nat :=
  if '0' ≤ c ∧ c ≤ '9' then some (c.toNat - 48) else none

/-- Parse a nonempty leading run of decimal digits, ignoring anything
after it (as `fmt.Sscanf`'s `%d` verb does). -/
def parseDigits : List Char → Option Nat
  | cs =>
      let run := cs.takeWhile (fun c => '0' ≤ c ∧ c ≤ '9')
      if run.isEmpty then none
      else some (run.foldl (fun acc c => acc * 10 + (c.toNat - 48)) 0)

/-- `fmt.Sscanf(part, key ++ "=%d", &u)` into an unsigned 32-bit field:
the literal prefix must match, `%d` skips blanks, a sign is rejected for
an unsigned target, and an out-of-range value errors. Trailing input is
ignored. -/
def scanNat32 (key : List Char) (part : List Char) : Option Nat :=
  if part.take key.length = key then
    let rest := (part.drop key.length).dropWhile (fun c => c = ' ' ∨ c = '\t')
    match parseDigits rest with
    | none => none
    | some n => if n < 4294967296 then some n else none
  else none

/-- `fmt.Sscanf(part, key ++ "=%d", &i)` into a signed integer field:
the literal prefix must match, `%d` skips blanks and accepts an optional
sign, and the value must fit in an `int64` (the scanner calls
`strconv.ParseInt(tok, 10, 64)`, which errors on overflow, i.e. outside
`[-2^63, 2^63 - 1]`). Trailing input is ignored. -/
def scanInt (key : List Char) (part : List Char) : Option Int :=
  if part.take key.length = key then
    let rest := (part.drop key.length).dropWhile (fun c => c = ' ' ∨ c = '\t')
    match rest with
    | '-' :: ds =>
        match parseDigits ds with
        | none => none
        | some n => if n ≤ 9223372036854775808 then some (-(n : Int)) else none
    | '+' :: ds =>
        match parseDigits ds with
        | none => none
        | some n => if n ≤ 9223372036854775807 then some ((n : Int)) else none
    | ds =>
        match parseDigits ds with
        | none => none
        | some n => if n ≤ 9223372036854775807 then some ((n : Int)) else none
  else none

/-- The value of a character in the standard base64 alphabet. -/
def b64Char (c : Char) : Option Nat :=
  if 'A' ≤ c ∧ c ≤ 'Z' then some (c.toNat - 65)
  else if 'a' ≤ c ∧ c ≤ 'z' then some (c.toNat - 97 + 26)
  else if '0' ≤ c ∧ c ≤ '9' then some (c.toNat - 48 + 52)
  else if c = '+' then some 62
  else if c = '/' then some 63
  else none

/-- Reassemble 6-bit groups into bytes; a final quantum of one group is
corrupt, final quanta of two or three groups yield one or two bytes
(leftover low bits ignored, as Go's non-strict decoder does). -/
def b64GroupsToBytes : List Nat → Option (List Nat)
  | [] => some []
  | [_] => none
  | [a, b] => some [a * 4 + b / 16]
  | [a, b, c] => some [a * 4 + b / 16, b % 16 * 16 + c / 4]
  | a :: b :: c :: d :: rest =>
      match b64GroupsToBytes rest with
      | none => none
      | some tail => some ([a * 4 + b / 16, b % 16 * 16 + c / 4, c % 4 * 64 + d] ++ tail)

/-- `base64.RawStdEncoding.DecodeString`: carriage returns and newlines
are ignored, any other character outside the alphabet (including the
padding character) is corrupt input. -/
def rawStdDecode (cs : List Char) : Option (List Nat) :=
  match (cs.filter (fun c => ¬(c = '\r' ∨ c = '\n'))).mapM b64Char with
  | none => none
  | some vals => b64GroupsToBytes vals

/-- The cost parameters recovered by `decodeArgon2Hash` (key length is
taken from the decoded key). -/
structure Argon2Params where
  memory : Nat
  iterations : Nat
  parallelism : Int
  keyLength : Nat
deriving DecidableEq, Repr

/-- `core.decodeArgon2Hash`: split on `$` into exactly six segments,
require the `argon2id` tag, scan `v=`, split the cost segment on `,` into
exactly three parts, scan `m=`/`t=`/`p=` (with `uint8(p)` truncation),
and base64-decode salt and key. Error strings are those of the source. -/
def decodeArgon2Hash (encodedHash : String) :
    Except String (Argon2Params × List Nat × List Nat) :=
  let parts := splitChar '$' encodedHash.toList
  match parts with
  | [_, tag, vPart, costPart, saltPart, hashPart] =>
      if tag ≠ "argon2id".toList then .error "unsupported algorithm"
      else
        match scanInt "v=".toList vPart with
        | none => .error "invalid version"
        | some _ =>
            match splitChar ',' costPart with
            | [mPart, tPart, pPart] =>
                match scanNat32 "m=".toList mPart with
                | none => .error "invalid memory parameter"
                | some m =>
                    match scanNat32 "t=".toList tPart with
                    | none => .error "invalid iterations parameter"
                    | some t =>
                        match scanInt "p=".toList pPart with
                        | none => .error "invalid parallelism parameter"
                        | some p =>
                            match rawStdDecode saltPart with
                            | none => .error "invalid salt encoding"
                            | some salt =>
                                match rawStdDecode hashPart with
                                | none => .error "invalid hash encoding"
                                | some hash =>
                                    .ok (⟨m, t, p % 256, hash.length⟩, salt, hash)
            | _ => .error "invalid parameters format"
  | _ => .error "invalid hash format"

/-- The shape of `argon2.IDKey`, kept abstract: password, salt,
iterations, memory, parallelism, key length to derived key. -/
abbrev KDF := String → List Nat → Nat → Nat → Int → Nat → List Nat

/-- `Argon2.Verify`: decode (propagating any decode error), re-derive the
key with the embedded parameters and salt, and compare against the
embedded key (`subtle.ConstantTimeCompare`, which is equality on byte
slices, false for differing lengths). -/
def Argon2Verify (kdf : KDF) (password encodedHash : String) : Except String Bool :=
  match decodeArgon2Hash encodedHash with
  | .error e => .error e
  | .ok d =>
      let computed := kdf password d.2.1 d.1.iterations d.1.memory d.1.parallelism d.1.keyLength
      .ok (decide (d.2.2 = computed))

/-! ## Concrete instances for counterexamples and witnesses -/

/-- A concrete stand-in for `crypto.HashToken` (SHA-256 hex digest),
injective by construction; the properties under verification do not
depend on the digest's bit-level value. -/
def demoHash (t : String) : String := "#" ++ t

/-- A session manager with a 10ns max-age, for concrete runs. -/
def envD : SMEnv := ⟨10, demoHash⟩

/-- A session for token `"tok"` that expired at time 5. -/
def sExpired : Session :=
  ⟨"sid1", "u1", demoHash "tok", "ip", "ua", 5, 0, 0⟩

/-- A session for token `"tok"` that is valid until time 100. -/
def sValid : Session :=
  ⟨"sid1", "u1", demoHash "tok", "ip", "ua", 100, 0, 0⟩

/-- A session owned by the empty user id. -/
def sEmptyUser : Session :=
  ⟨"sid1", "", demoHash "tok", "ip", "ua", 100, 0, 0⟩

/-- A fault-free fake cache holding only `sValid` under its digest. -/
def staleCache : FakeCache :=
  ⟨[(demoHash "tok", sValid)], false, false, false, false, 0, 0⟩

/-- An in-memory cache with TTL 10 holding one record inserted at time 0. -/
def cacheWithOld : InMemoryCache :=
  ⟨[("h", ⟨sValid, 0⟩)], 10, 500, 0, 0, 0, 0, 0⟩

/-- A trivial stand-in for `argon2.IDKey`: the all-zero key of the
requested length. -/
def kdfZero : KDF := fun _ _ _ _ _ keyLen => List.replicate keyLen 0

/-! ## C9: expiry strictly after creation -/

/-- C9 counterexample: with the negative configured max-age that the
repository's own tests use (−1 hour), `Create` produces a session whose
expiry time is strictly BEFORE its creation time, so the claimed
invariant fails for non-positive max-ages. -/
theorem create_negative_maxAge_example :
    ((SMEnv.mk (-3600000000000) demoHash).create ⟨[], none⟩ 0 "t" "s" "u" "i" "a").1.session.expiresAt <
      ((SMEnv.mk (-3600000000000) demoHash).create ⟨[], none⟩ 0 "t" "s" "u" "i" "a").1.session.createdAt := by
  decide

/-- C9 (amended): for every POSITIVE configured max-age, every session
produced by `SessionManager.Create` has its expiry time strictly after
its creation time (`expiresAt = createdAt + maxAge`). -/
theorem create_expiry_after_creation (env : SMEnv) (st : SMState) (now : Int)
    (rawToken sessionID userID ip ua : String) (hPos : 0 < env.maxAge) :
    (env.create st now rawToken sessionID userID ip ua).1.session.createdAt <
      (env.create st now rawToken sessionID userID ip ua).1.session.expiresAt := by
  obtain ⟨storage, cOpt⟩ := st
  cases cOpt <;> simp [SMEnv.create] <;> omega

/-- Witness for C9: the amended theorem applied at a concrete input. -/
theorem create_expiry_after_creation_witness :
    0 < envD.maxAge ∧
      (envD.create ⟨[], none⟩ 0 "t" "s" "u" "i" "a").1.session.createdAt <
        (envD.create ⟨[], none⟩ 0 "t" "s" "u" "i" "a").1.session.expiresAt :=
  ⟨by decide, create_expiry_after_creation envD ⟨[], none⟩ 0 "t" "s" "u" "i" "a" (by decide)⟩

/-! ## C6: the identifier generator's bit-mask -/

/-- C6 counterexample: for the default 64-character alphabet the code
computes mask 127, but the smallest value of the form `2^k − 1` that is
`≥ 64 − 1` is 63, so the mask is not that smallest value. -/
theorem getMask_default_alphabet_example :
    getMask 64 = 127 ∧ smallestMaskGE (64 - 1) = 63 := by decide

set_option maxRecDepth 8000 in
/-- C6 (amended): for every alphabet length the generator accepts
(8–255), the computed mask is the smallest value of the form `2^k − 1`
that is STRICTLY GREATER than `alphabetLength − 1`; for the default
64-character alphabet this is 127, matching the repository's own tests. -/
theorem getMask_smallest_strictly_greater :
    ∀ n < 256, 8 ≤ n → getMask n = smallestMaskGT (n - 1) := by decide

/-- Witness for C6: the amended theorem applied at the default alphabet
length. -/
theorem getMask_smallest_strictly_greater_witness :
    64 < 256 ∧ 8 ≤ 64 ∧ getMask 64 = smallestMaskGT (64 - 1) :=
  ⟨by decide, by decide, getMask_smallest_strictly_greater 64 (by decide) (by decide)⟩

/-! ## C7: cache TTL handling in `InMemoryCache.Get` -/

/-- C7 counterexample: reading a TTL-expired entry increments the miss
counter and the DELETE counter (via `Delete`), while the eviction counter
stays unchanged — the claim that the eviction counter is incremented
fails. -/
theorem cache_get_expired_counters_example :
    (cacheWithOld.get 20 "h").1 = Except.error Err.cacheNotFound ∧
      (cacheWithOld.get 20 "h").2.misses = 1 ∧
      (cacheWithOld.get 20 "h").2.deletes = 1 ∧
      (cacheWithOld.get 20 "h").2.evictions = 0 ∧
      lookupS (cacheWithOld.get 20 "h").2.cache "h" = none :=
  ⟨rfl, rfl, rfl, rfl, rfl⟩

/-- C7 (amended): for a digest present in the cache, `Get` compares
`now − insertionTime` to the TTL; if strictly exceeded it reports a miss,
evicts the entry and increments the miss and DELETE counters (the
eviction counter, incremented only by capacity eviction in `Set`, stays
unchanged); otherwise it increments the hit counter and returns the
cached session. -/
theorem cache_get_ttl_spec (c : InMemoryCache) (now : Int) (h : String)
    (record : CachedRecord) (hFound : lookupS c.cache h = some record) :
    (c.ttl < now - record.cachedAt →
      (c.get now h).1 = .error .cacheNotFound ∧
      (c.get now h).2.misses = c.misses + 1 ∧
      (c.get now h).2.deletes = c.deletes + 1 ∧
      (c.get now h).2.evictions = c.evictions ∧
      (c.get now h).2.hits = c.hits ∧
      lookupS (c.get now h).2.cache h = none) ∧
    (¬ c.ttl < now - record.cachedAt →
      (c.get now h).1 = .ok record.session ∧
      (c.get now h).2.hits = c.hits + 1 ∧
      (c.get now h).2.misses = c.misses ∧
      (c.get now h).2.cache = c.cache) := by
  constructor
  · intro hexp
    simp [InMemoryCache.get, InMemoryCache.delete, hFound, hexp, lookupS_eraseS]
  · intro hfresh
    simp [InMemoryCache.get, hFound, hfresh]

/-- Witness for C7: the amended theorem applied at a concrete expired
entry. -/
theorem cache_get_ttl_spec_witness :
    lookupS cacheWithOld.cache "h" = some ⟨sValid, 0⟩ ∧
      cacheWithOld.ttl < 20 - (0 : Int) ∧
      ((cacheWithOld.get 20 "h").1 = .error .cacheNotFound ∧
        (cacheWithOld.get 20 "h").2.misses = cacheWithOld.misses + 1 ∧
        (cacheWithOld.get 20 "h").2.deletes = cacheWithOld.deletes + 1 ∧
        (cacheWithOld.get 20 "h").2.evictions = cacheWithOld.evictions ∧
        (cacheWithOld.get 20 "h").2.hits = cacheWithOld.hits ∧
        lookupS (cacheWithOld.get 20 "h").2.cache "h" = none) :=
  ⟨rfl, by decide,
    (cache_get_ttl_spec cacheWithOld 20 "h" ⟨sValid, 0⟩ rfl).1 (by decide)⟩

/-! ## C10: the in-memory cache is bounded -/

/-- C10: the constructor substitutes 500 for a zero configured maximum
and starts empty, and every operation preserves `size ≤ maxSize` (for any
positive capacity); `Set` in particular evicts one entry before
inserting when at capacity. -/
theorem inMemoryCache_bounded (cfg : CacheConfig) (c : InMemoryCache)
    (now : Int) (h : String) (s : Session)
    (hMax : 1 ≤ c.maxSize) (hLen : (c.cache.length : Int) ≤ c.maxSize) :
    (cfg.maxSize = 0 → (NewInMemoryCache cfg).maxSize = 500) ∧
    (NewInMemoryCache cfg).cache.length = 0 ∧
    ((c.set now h s).cache.length : Int) ≤ c.maxSize ∧
    (c.set now h s).maxSize = c.maxSize ∧
    (((c.get now h).2.cache.length : Int) ≤ c.maxSize ∧
      (c.get now h).2.maxSize = c.maxSize) ∧
    (((c.delete h).cache.length : Int) ≤ c.maxSize ∧
      (c.delete h).maxSize = c.maxSize) ∧
    ((c.clear.cache.length : Int) ≤ c.maxSize ∧ c.clear.maxSize = c.maxSize) := by
  have hR : ((eraseS c.cache h).length : Int) ≤ (c.cache.length : Int) := by
    exact_mod_cast eraseS_length_le c.cache h
  refine ⟨fun h0 => by simp [NewInMemoryCache, h0], by simp [NewInMemoryCache],
    ?_, ?_, ⟨?_, ?_⟩, ⟨?_, ?_⟩, ?_, ?_⟩
  · simp only [InMemoryCache.set, insertS]
    by_cases hFull : c.maxSize ≤ (c.cache.length : Int)
    · rw [if_pos hFull]
      cases hC : c.cache with
      | nil =>
          rw [hC] at hLen hFull
          simp [eraseS]
          omega
      | cons p rest =>
          rw [hC] at hLen
          have hR' : ((eraseS rest h).length : Int) ≤ (rest.length : Int) := by
            exact_mod_cast eraseS_length_le rest h
          simp at hLen ⊢
          omega
    · rw [if_neg hFull]
      simp
      omega
  · simp only [InMemoryCache.set]
  · cases hL : lookupS c.cache h with
    | none => simp [InMemoryCache.get, hL]; exact hLen
    | some record =>
        by_cases hexp : c.ttl < now - record.cachedAt
        · simp [InMemoryCache.get, InMemoryCache.delete, hL, hexp]
          omega
        · simp [InMemoryCache.get, hL, hexp]; exact hLen
  · cases hL : lookupS c.cache h with
    | none => simp [InMemoryCache.get, hL]
    | some record =>
        by_cases hexp : c.ttl < now - record.cachedAt
        · simp [InMemoryCache.get, InMemoryCache.delete, hL, hexp]
        · simp [InMemoryCache.get, hL, hexp]
  · cases hL : lookupS c.cache h with
    | none => simp [InMemoryCache.delete, hL]; exact hLen
    | some record =>
        simp [InMemoryCache.delete, hL]
        omega
  · cases hL : lookupS c.cache h with
    | none => simp [InMemoryCache.delete, hL]
    | some record => simp [InMemoryCache.delete, hL]
  · simp [InMemoryCache.clear]
    omega
  · simp [InMemoryCache.clear]

/-- Witness for C10: the theorem applied at a concrete cache at
capacity. -/
theorem inMemoryCache_bounded_witness :
    1 ≤ cacheWithOld.maxSize ∧ (cacheWithOld.cache.length : Int) ≤ cacheWithOld.maxSize ∧
      ((cacheWithOld.set 0 "h2" sValid).cache.length : Int) ≤ cacheWithOld.maxSize :=
  ⟨by decide, by decide,
    (inMemoryCache_bounded ⟨0, 0⟩ cacheWithOld 0 "h2" sValid (by decide) (by decide)).2.2.1⟩

/-! ## C1: no read-triggered Storage cleanup on expiry -/

/-- C1 counterexample: verifying a token whose Storage record has
expired fails with "session expired", but a direct Storage lookup by the
digest afterwards STILL FINDS the record — the claimed read-triggered
cleanup does not happen. -/
theorem verify_expired_keeps_record_example :
    (envD.verify ⟨[(demoHash "tok", sExpired)], none⟩ 10 "tok").1 =
      .error .sessionExpired ∧
    lookupS (envD.verify ⟨[(demoHash "tok", sExpired)], none⟩ 10 "tok").2.storage
      (demoHash "tok") = some sExpired :=
  ⟨rfl, rfl⟩

/-- C1 (amended): for every non-empty token whose session record exists
in Storage but has expired, `Verify` (with no cache configured, i.e. the
Storage read path) fails with the "session expired" error and leaves the
entire state — in particular the Storage record — unchanged; a subsequent
direct Storage lookup by that digest still finds the record. -/
theorem verify_expired_no_storage_cleanup (env : SMEnv) (storage : Storage)
    (now : Int) (token : String) (s : Session)
    (hTok : token ≠ "")
    (hFound : lookupS storage (env.hashFn token) = some s)
    (hExpired : s.expiresAt < now) :
    (env.verify ⟨storage, none⟩ now token).1 = .error .sessionExpired ∧
    (env.verify ⟨storage, none⟩ now token).2 = ⟨storage, none⟩ ∧
    lookupS (env.verify ⟨storage, none⟩ now token).2.storage (env.hashFn token) =
      some s := by
  have h1 : env.verify ⟨storage, none⟩ now token =
      (.error .sessionExpired, ⟨storage, none⟩) := by
    simp [SMEnv.verify, SMEnv.verifyFromStorage, Storage.getSessionByHash,
      hTok, hFound, hExpired]
  exact ⟨by rw [h1], by rw [h1], by rw [h1]; exact hFound⟩

/-- Witness for C1: the amended theorem applied at a concrete expired
record. -/
theorem verify_expired_no_storage_cleanup_witness :
    "tok" ≠ "" ∧
      lookupS [(demoHash "tok", sExpired)] (envD.hashFn "tok") = some sExpired ∧
      sExpired.expiresAt < 10 ∧
      (envD.verify ⟨[(demoHash "tok", sExpired)], none⟩ 10 "tok").1 =
        .error .sessionExpired ∧
      lookupS (envD.verify ⟨[(demoHash "tok", sExpired)], none⟩ 10 "tok").2.storage
        (envD.hashFn "tok") = some sExpired :=
  ⟨by decide, rfl, by decide,
    (verify_expired_no_storage_cleanup envD [(demoHash "tok", sExpired)] 10 "tok"
      sExpired (by decide) rfl (by decide)).1,
    (verify_expired_no_storage_cleanup envD [(demoHash "tok", sExpired)] 10 "tok"
      sExpired (by decide) rfl (by decide)).2.2⟩

/-! ## C4: Destroy and the cache -/

/-- C4 counterexample: when the Storage delete fails (digest absent from
Storage), `Destroy` returns early and the cache delete is NOT attempted:
the stale cache entry survives and a subsequent `Verify` of the same
token even succeeds from the stale cache hit. -/
theorem destroy_storage_error_keeps_cache_example :
    (envD.destroy ⟨[], some staleCache⟩ "tok").1 = .error .sessionNotFound ∧
    (envD.destroy ⟨[], some staleCache⟩ "tok").2 = ⟨[], some staleCache⟩ ∧
    lookupS staleCache.cache (demoHash "tok") = some sValid ∧
    (envD.verify (envD.destroy ⟨[], some staleCache⟩ "tok").2 0 "tok").1 =
      .ok sValid :=
  ⟨rfl, rfl, rfl, rfl⟩

/-- C4 (amended): for every non-empty token, `Destroy` computes the
digest and deletes by digest from Storage; WHEN THE STORAGE DELETE
SUCCEEDS (and the configured cache's delete is not failing), it also
deletes the digest from the cache, so after a successful `Destroy` the
cache holds no entry for the digest and a subsequent `Verify` of the
token fails with the storage not-found error rather than succeeding from
a stale cache hit. -/
theorem destroy_success_purges_cache (env : SMEnv) (storage : Storage)
    (c : FakeCache) (now : Int) (token : String) (s : Session)
    (hTok : token ≠ "") (hDel : c.delErr = false)
    (hFound : lookupS storage (env.hashFn token) = some s) :
    (env.destroy ⟨storage, some c⟩ token).1 = .ok () ∧
    (env.destroy ⟨storage, some c⟩ token).2 =
      ⟨eraseS storage (env.hashFn token),
       some { c with cache := eraseS c.cache (env.hashFn token) }⟩ ∧
    lookupS (eraseS c.cache (env.hashFn token)) (env.hashFn token) = none ∧
    (env.verify (env.destroy ⟨storage, some c⟩ token).2 now token).1 =
      .error .storageNotFound := by
  have h1 : env.destroy ⟨storage, some c⟩ token =
      (.ok (), ⟨eraseS storage (env.hashFn token),
        some { c with cache := eraseS c.cache (env.hashFn token) }⟩) := by
    simp [SMEnv.destroy, Storage.deleteSessionByHash, FakeCache.delete,
      hTok, hDel, hFound]
  refine ⟨by rw [h1], by rw [h1], by simp [lookupS_eraseS], ?_⟩
  rw [h1]
  cases hg : c.getErr <;>
    simp [SMEnv.verify, SMEnv.verifyFromStorage, FakeCache.get,
      Storage.getSessionByHash, hTok, hg, lookupS_eraseS]

/-- Witness for C4: the amended theorem applied at a concrete state where
both Storage and the cache hold the digest. -/
theorem destroy_success_purges_cache_witness :
    "tok" ≠ "" ∧ staleCache.delErr = false ∧
      lookupS [(demoHash "tok", sValid)] (envD.hashFn "tok") = some sValid ∧
      (envD.destroy ⟨[(demoHash "tok", sValid)], some staleCache⟩ "tok").1 = .ok () ∧
      (envD.verify (envD.destroy ⟨[(demoHash "tok", sValid)], some staleCache⟩
        "tok").2 0 "tok").1 = .error .storageNotFound :=
  ⟨by decide, rfl, rfl,
    (destroy_success_purges_cache envD [(demoHash "tok", sValid)] staleCache 0 "tok"
      sValid (by decide) rfl rfl).1,
    (destroy_success_purges_cache envD [(demoHash "tok", sValid)] staleCache 0 "tok"
      sValid (by decide) rfl rfl).2.2.2⟩

/-! ## C5: DestroyAllUserSessions -/

/-- C5 counterexample: sessions owned by the EMPTY user id can exist
(`Create` accepts an empty userID), yet `DestroyAllUserSessions("")`
fails with the user-not-found error and deletes nothing, so the claim
does not hold "for every userID". -/
theorem destroyAllUserSessions_empty_userID_example :
    (envD.destroyAllUserSessions ⟨[(demoHash "tok", sEmptyUser)], none⟩ "").1 =
      .error .userNotFound ∧
    (envD.destroyAllUserSessions ⟨[(demoHash "tok", sEmptyUser)], none⟩ "").2.storage =
      [(demoHash "tok", sEmptyUser)] :=
  ⟨rfl, rfl⟩

/-- C5 (amended): for every NON-EMPTY userID,
`DestroyAllUserSessions(userID)` deletes exactly the Storage records
owned by that user, returns their count, and (for a cache whose `Clear`
is not failing) clears the entire cache if and only if the count is
positive and a cache is configured; with a zero count or no cache the
cache is left unchanged. `DestroyAllUserSessions("")` fails with the
user-not-found error. -/
theorem destroyAllUserSessions_spec (env : SMEnv) (storage : Storage)
    (cOpt : Option FakeCache) (userID : String)
    (hUid : userID ≠ "")
    (hClear : ∀ c, cOpt = some c → c.clearErr = false) :
    (env.destroyAllUserSessions ⟨storage, cOpt⟩ userID).1 =
      .ok (storage.countP (fun p => p.2.userID = userID)) ∧
    (env.destroyAllUserSessions ⟨storage, cOpt⟩ userID).2.storage =
      storage.filter (fun p => p.2.userID ≠ userID) ∧
    ((env.destroyAllUserSessions ⟨storage, cOpt⟩ userID).2.cache =
      match cOpt with
      | none => none
      | some c =>
          if 0 < storage.countP (fun p => p.2.userID = userID)
          then some { c with cache := [] } else some c) ∧
    (env.destroyAllUserSessions ⟨storage, cOpt⟩ "").1 = .error .userNotFound := by
  cases cOpt with
  | none =>
      simp [SMEnv.destroyAllUserSessions, Storage.deleteUserSessions, hUid]
  | some c =>
      have hc := hClear c rfl
      by_cases hcnt : 0 < storage.countP (fun p => p.2.userID = userID) <;>
        simp [SMEnv.destroyAllUserSessions, Storage.deleteUserSessions,
          FakeCache.clear, hUid, hc, hcnt]

/-- Witness for C5: the amended theorem applied at a concrete state with
one session of the user and a configured cache. -/
theorem destroyAllUserSessions_spec_witness :
    "u1" ≠ "" ∧
      (envD.destroyAllUserSessions ⟨[(demoHash "tok", sValid)], some staleCache⟩
        "u1").1 = .ok 1 ∧
      (envD.destroyAllUserSessions ⟨[(demoHash "tok", sValid)], some staleCache⟩
        "u1").2.cache = some { staleCache with cache := [] } :=
  ⟨by decide,
    by
      have h := (destroyAllUserSessions_spec envD [(demoHash "tok", sValid)]
        (some staleCache) "u1" (by decide) (fun c hc => by cases hc; rfl)).1
      simpa using h,
    by
      have h := (destroyAllUserSessions_spec envD [(demoHash "tok", sValid)]
        (some staleCache) "u1" (by decide) (fun c hc => by cases hc; rfl)).2.2.1
      simpa using h⟩

/-! ## C2: cache failures are never surfaced -/

/-- A copy of `c` with the four injectable failure flags set as given. -/
def withFlags (c : FakeCache) (g sF dF cF : Bool) : FakeCache :=
  { c with getErr := g, setErr := sF, delErr := dF, clearErr := cF }

theorem create_result_const (env : SMEnv) (st st' : SMState) (now : Int)
    (rawToken sessionID userID ip ua : String) :
    (env.create st now rawToken sessionID userID ip ua).1 =
      (env.create st' now rawToken sessionID userID ip ua).1 := by
  obtain ⟨s1, c1⟩ := st
  obtain ⟨s2, c2⟩ := st'
  cases c1 <;> cases c2 <;> rfl

theorem verifyFromStorage_result (env : SMEnv) (stor : Storage)
    (cA cA' co co' : Option FakeCache) (now : Int) (h : String) :
    (env.verifyFromStorage ⟨stor, cA⟩ now h co).1 =
      (env.verifyFromStorage ⟨stor, cA'⟩ now h co').1 := by
  unfold SMEnv.verifyFromStorage
  cases hG : Storage.getSessionByHash stor h with
  | none => simp
  | some s =>
      by_cases hE : s.expiresAt < now
      · simp [hE]
      · cases co <;> cases co' <;> simp [hE]

theorem verify_result_flags (env : SMEnv) (storage : Storage) (c : FakeCache)
    (g sF dF cF sF' dF' cF' : Bool) (now : Int) (token : String) :
    (env.verify ⟨storage, some (withFlags c g sF dF cF)⟩ now token).1 =
      (env.verify ⟨storage, some (withFlags c g sF' dF' cF')⟩ now token).1 := by
  by_cases ht : token = ""
  · simp [SMEnv.verify, ht]
  · unfold SMEnv.verify
    simp only [if_neg ht]
    cases g with
    | true =>
        simp only [FakeCache.get, withFlags]
        exact verifyFromStorage_result env storage _ _ _ _ now _
    | false =>
        simp only [FakeCache.get, withFlags]
        cases hL : lookupS c.cache (env.hashFn token) with
        | none =>
            simp only [hL, Bool.false_eq_true, if_false]
            exact verifyFromStorage_result env storage _ _ _ _ now _
        | some s =>
            by_cases hE : s.expiresAt < now <;>
              simp [hL, hE, FakeCache.delete]

theorem verify_result_getErr (env : SMEnv) (storage : Storage) (c : FakeCache)
    (sF dF cF : Bool) (now : Int) (token : String) :
    (env.verify ⟨storage, some (withFlags c true sF dF cF)⟩ now token).1 =
      (env.verify ⟨storage, none⟩ now token).1 := by
  by_cases ht : token = ""
  · simp [SMEnv.verify, ht]
  · unfold SMEnv.verify
    simp only [if_neg ht, FakeCache.get, withFlags]
    exact verifyFromStorage_result env storage _ _ _ _ now _

theorem verify_storage_inv (env : SMEnv) (st : SMState) (now : Int) (token : String) :
    (env.verify st now token).2.storage = st.storage := by
  obtain ⟨stor, cOpt⟩ := st
  by_cases ht : token = ""
  · simp [SMEnv.verify, ht]
  · unfold SMEnv.verify SMEnv.verifyFromStorage
    simp only [if_neg ht]
    cases cOpt with
    | none =>
        cases hG : Storage.getSessionByHash stor (env.hashFn token) with
        | none => simp [hG]
        | some s => by_cases hE : s.expiresAt < now <;> simp [hG, hE]
    | some c =>
        cases hg : c.getErr with
        | true =>
            simp only [FakeCache.get, hg, if_true]
            cases hG : Storage.getSessionByHash stor (env.hashFn token) with
            | none => simp [hG]
            | some s => by_cases hE : s.expiresAt < now <;> simp [hG, hE]
        | false =>
            simp only [FakeCache.get, hg, Bool.false_eq_true, if_false]
            cases hL : lookupS c.cache (env.hashFn token) with
            | none =>
                cases hG : Storage.getSessionByHash stor (env.hashFn token) with
                | none => simp [hG]
                | some s => by_cases hE : s.expiresAt < now <;> simp [hG, hE]
            | some s => by_cases hE : s.expiresAt < now <;> simp [hE]

theorem destroy_result_cache_indep (env : SMEnv) (storage : Storage)
    (cOpt cOpt' : Option FakeCache) (token : String) :
    (env.destroy ⟨storage, cOpt⟩ token).1 = (env.destroy ⟨storage, cOpt'⟩ token).1 := by
  by_cases ht : token = ""
  · simp [SMEnv.destroy, ht]
  · cases hD : Storage.deleteSessionByHash storage (env.hashFn token) <;>
      cases cOpt <;> cases cOpt' <;>
      simp [SMEnv.destroy, ht, hD]

theorem destroyByID_result_cache_indep (env : SMEnv) (storage : Storage)
    (cOpt cOpt' : Option FakeCache) (sid : String) :
    (env.destroyBySessionID ⟨storage, cOpt⟩ sid).1 =
      (env.destroyBySessionID ⟨storage, cOpt'⟩ sid).1 := by
  by_cases hs : sid = ""
  · simp [SMEnv.destroyBySessionID, hs]
  · cases cOpt <;> cases cOpt' <;>
      cases hG : Storage.getSessionByID storage sid <;>
      cases hD : Storage.deleteSessionByID storage sid <;>
      simp [SMEnv.destroyBySessionID, hs, hG, hD]

theorem destroyAll_result_cache_indep (env : SMEnv) (storage : Storage)
    (cOpt cOpt' : Option FakeCache) (uid : String) :
    (env.destroyAllUserSessions ⟨storage, cOpt⟩ uid).1 =
      (env.destroyAllUserSessions ⟨storage, cOpt'⟩ uid).1 := by
  by_cases hu : uid = ""
  · simp [SMEnv.destroyAllUserSessions, hu]
  · cases cOpt <;> cases cOpt' <;>
      by_cases hcnt : 0 < (Storage.deleteUserSessions storage uid).1 <;>
      simp [SMEnv.destroyAllUserSessions, hu, hcnt]

theorem refresh_result_flags (env : SMEnv) (storage : Storage) (c : FakeCache)
    (g sF dF cF sF' dF' cF' : Bool) (nowV nowC : Int)
    (token newToken newID : String) :
    (env.refresh ⟨storage, some (withFlags c g sF dF cF)⟩ nowV nowC token newToken newID).1 =
      (env.refresh ⟨storage, some (withFlags c g sF' dF' cF')⟩ nowV nowC token newToken newID).1 := by
  by_cases ht : token = ""
  · simp [SMEnv.refresh, ht]
  · unfold SMEnv.refresh
    simp only [if_neg ht]
    have hv := verify_result_flags env storage c g sF dF cF sF' dF' cF' nowV token
    have hi1 := verify_storage_inv env ⟨storage, some (withFlags c g sF dF cF)⟩ nowV token
    have hi2 := verify_storage_inv env ⟨storage, some (withFlags c g sF' dF' cF')⟩ nowV token
    rcases h1 : env.verify ⟨storage, some (withFlags c g sF dF cF)⟩ nowV token with ⟨r1, st1⟩
    rcases h2 : env.verify ⟨storage, some (withFlags c g sF' dF' cF')⟩ nowV token with ⟨r2, st2⟩
    rw [h1] at hv hi1
    rw [h2] at hv hi2
    simp only at hv
    cases hv
    cases r1 with
    | error e => rfl
    | ok s =>
        obtain ⟨ss1, sc1⟩ := st1
        obtain ⟨ss2, sc2⟩ := st2
        simp only at hi1 hi2
        rw [hi1, hi2]
        have hd := destroy_result_cache_indep env storage sc1 sc2 token
        rcases hd1 : env.destroy ⟨storage, sc1⟩ token with ⟨dr1, dst1⟩
        rcases hd2 : env.destroy ⟨storage, sc2⟩ token with ⟨dr2, dst2⟩
        rw [hd1] at hd
        rw [hd2] at hd
        simp only at hd
        cases hd
        cases dr1 with
        | error e => simp [hd1, hd2]
        | ok u =>
            simp only [hd1, hd2]
            rw [create_result_const env dst1 dst2 nowC newToken newID
              s.userID s.ipAddress s.userAgent]

theorem refresh_result_getErr (env : SMEnv) (storage : Storage) (c : FakeCache)
    (sF dF cF : Bool) (nowV nowC : Int) (token newToken newID : String) :
    (env.refresh ⟨storage, some (withFlags c true sF dF cF)⟩ nowV nowC token newToken newID).1 =
      (env.refresh ⟨storage, none⟩ nowV nowC token newToken newID).1 := by
  by_cases ht : token = ""
  · simp [SMEnv.refresh, ht]
  · unfold SMEnv.refresh
    simp only [if_neg ht]
    have hv := verify_result_getErr env storage c sF dF cF nowV token
    have hi1 := verify_storage_inv env ⟨storage, some (withFlags c true sF dF cF)⟩ nowV token
    have hi2 := verify_storage_inv env ⟨storage, none⟩ nowV token
    rcases h1 : env.verify ⟨storage, some (withFlags c true sF dF cF)⟩ nowV token with ⟨r1, st1⟩
    rcases h2 : env.verify ⟨storage, none⟩ nowV token with ⟨r2, st2⟩
    rw [h1] at hv hi1
    rw [h2] at hv hi2
    simp only at hv
    cases hv
    cases r1 with
    | error e => rfl
    | ok s =>
        obtain ⟨ss1, sc1⟩ := st1
        obtain ⟨ss2, sc2⟩ := st2
        simp only at hi1 hi2
        rw [hi1, hi2]
        have hd := destroy_result_cache_indep env storage sc1 sc2 token
        rcases hd1 : env.destroy ⟨storage, sc1⟩ token with ⟨dr1, dst1⟩
        rcases hd2 : env.destroy ⟨storage, sc2⟩ token with ⟨dr2, dst2⟩
        rw [hd1] at hd
        rw [hd2] at hd
        simp only at hd
        cases hd
        cases dr1 with
        | error e => simp [hd1, hd2]
        | ok u =>
            simp only [hd1, hd2]
            rw [create_result_const env dst1 dst2 nowC newToken newID
              s.userID s.ipAddress s.userAgent]

/-- C2: for every `SessionManager` operation, when the Storage
collaborator succeeds (the deterministic fake storage), the operation's
returned result and error do not depend on whether any cache call fails:
`Set`/`Delete`/`Clear` failures are invisible in the result of every
operation, a failing (or absent-entry) `Get` makes `Verify` and `Refresh`
behave exactly as with no cache configured, and the remaining operations
return the no-cache result under every failure combination. -/
theorem cache_failures_never_surfaced (env : SMEnv) (storage : Storage)
    (c : FakeCache) (g sF dF cF sF' dF' cF' : Bool) (now nowC : Int)
    (rawToken sessionID userID ip ua token sid uid newToken newID : String) :
    ((env.create ⟨storage, some (withFlags c g sF dF cF)⟩ now rawToken sessionID userID ip ua).1 =
      (env.create ⟨storage, none⟩ now rawToken sessionID userID ip ua).1) ∧
    ((env.verify ⟨storage, some (withFlags c g sF dF cF)⟩ now token).1 =
      (env.verify ⟨storage, some (withFlags c g sF' dF' cF')⟩ now token).1) ∧
    ((env.verify ⟨storage, some (withFlags c true sF dF cF)⟩ now token).1 =
      (env.verify ⟨storage, none⟩ now token).1) ∧
    ((env.destroy ⟨storage, some (withFlags c g sF dF cF)⟩ token).1 =
      (env.destroy ⟨storage, none⟩ token).1) ∧
    ((env.destroyBySessionID ⟨storage, some (withFlags c g sF dF cF)⟩ sid).1 =
      (env.destroyBySessionID ⟨storage, none⟩ sid).1) ∧
    ((env.destroyAllUserSessions ⟨storage, some (withFlags c g sF dF cF)⟩ uid).1 =
      (env.destroyAllUserSessions ⟨storage, none⟩ uid).1) ∧
    ((env.refresh ⟨storage, some (withFlags c g sF dF cF)⟩ now nowC token newToken newID).1 =
      (env.refresh ⟨storage, some (withFlags c g sF' dF' cF')⟩ now nowC token newToken newID).1) ∧
    ((env.refresh ⟨storage, some (withFlags c true sF dF cF)⟩ now nowC token newToken newID).1 =
      (env.refresh ⟨storage, none⟩ now nowC token newToken newID).1) :=
  ⟨create_result_const env _ _ now rawToken sessionID userID ip ua,
   verify_result_flags env storage c g sF dF cF sF' dF' cF' now token,
   verify_result_getErr env storage c sF dF cF now token,
   destroy_result_cache_indep env storage _ none token,
   destroyByID_result_cache_indep env storage _ none sid,
   destroyAll_result_cache_indep env storage _ none uid,
   refresh_result_flags env storage c g sF dF cF sF' dF' cF' now nowC token newToken newID,
   refresh_result_getErr env storage c sF dF cF now nowC token newToken newID⟩

/-! ## C3: Refresh rotates the token -/

/-- C3: for every token that is currently Active (its record is in
Storage with `now < expiry`) and a fault-free, coherent cache (or no
cache), `Refresh` destroys the old session and mints a new one carrying
the same user/ip/user-agent: the returned raw token is the freshly
generated one and differs from the old token, the new expiry
`nowC + maxAge` is strictly later than the old expiry (for a session
minted by `Create`, whose expiry is `createdAt + maxAge`, under a
strictly advancing clock), the old token fails `Verify` immediately
afterwards, and `Refresh("")` fails with the invalid-token error.
The freshness of the generated token (distinct digest) is a property of
the random source and is taken as a hypothesis. -/
theorem refresh_rotates_token (env : SMEnv) (storage : Storage)
    (cOpt : Option FakeCache) (nowV nowC : Int)
    (token newToken newID : String) (s : Session)
    (hTok : token ≠ "")
    (hFound : lookupS storage (env.hashFn token) = some s)
    (hActive : nowV < s.expiresAt)
    (hMint : s.expiresAt = s.createdAt + env.maxAge)
    (hClock : s.createdAt < nowC)
    (hFresh : env.hashFn newToken ≠ env.hashFn token)
    (hCache : ∀ cfc, cOpt = some cfc → cfc.getErr = false ∧ cfc.setErr = false ∧
        cfc.delErr = false ∧
        (lookupS cfc.cache (env.hashFn token) = none ∨
         lookupS cfc.cache (env.hashFn token) = some s)) :
    (env.refresh ⟨storage, cOpt⟩ nowV nowC token newToken newID).1 =
      .ok ⟨⟨newID, s.userID, env.hashFn newToken, s.ipAddress, s.userAgent,
            nowC + env.maxAge, nowC, nowC⟩, newToken⟩ ∧
    newToken ≠ token ∧
    s.expiresAt < nowC + env.maxAge ∧
    (env.verify (env.refresh ⟨storage, cOpt⟩ nowV nowC token newToken newID).2
      nowC token).1 = .error .storageNotFound ∧
    (env.refresh ⟨storage, cOpt⟩ nowV nowC "" newToken newID).1 =
      .error .invalidToken := by
  have hTokNe : newToken ≠ token := fun he => hFresh (congrArg env.hashFn he)
  have hLater : s.expiresAt < nowC + env.maxAge := by omega
  have hNE : ¬ s.expiresAt < nowV := by omega
  have hEmpty : (env.refresh ⟨storage, cOpt⟩ nowV nowC "" newToken newID).1 =
      .error .invalidToken := by
    simp [SMEnv.refresh]
  rcases cOpt with _ | cfc
  · have hRun : env.refresh ⟨storage, none⟩ nowV nowC token newToken newID =
        (.ok ⟨⟨newID, s.userID, env.hashFn newToken, s.ipAddress, s.userAgent,
              nowC + env.maxAge, nowC, nowC⟩, newToken⟩,
         ⟨insertS (eraseS storage (env.hashFn token)) (env.hashFn newToken)
            ⟨newID, s.userID, env.hashFn newToken, s.ipAddress, s.userAgent,
              nowC + env.maxAge, nowC, nowC⟩, none⟩) := by
      simp [SMEnv.refresh, SMEnv.verify, SMEnv.verifyFromStorage, SMEnv.destroy,
        SMEnv.create, Storage.getSessionByHash, Storage.deleteSessionByHash,
        hTok, hFound, hNE]
    refine ⟨by rw [hRun], hTokNe, hLater, ?_, hEmpty⟩
    rw [hRun]
    simp [SMEnv.verify, SMEnv.verifyFromStorage, Storage.getSessionByHash,
      hTok, lookupS_insertS, lookupS_eraseS, hFresh]
  · obtain ⟨hg, hsF, hdF, hcoh⟩ := hCache cfc rfl
    obtain ⟨cm, cg, cs, cd, ccl, chi, cmi⟩ := cfc
    simp only at hg hsF hdF hcoh
    subst hg; subst hsF; subst hdF
    rcases hcoh with hmiss | hhit
    · have hRun : env.refresh
          ⟨storage, some ⟨cm, false, false, false, ccl, chi, cmi⟩⟩
          nowV nowC token newToken newID =
          (.ok ⟨⟨newID, s.userID, env.hashFn newToken, s.ipAddress, s.userAgent,
                nowC + env.maxAge, nowC, nowC⟩, newToken⟩,
           ⟨insertS (eraseS storage (env.hashFn token)) (env.hashFn newToken)
              ⟨newID, s.userID, env.hashFn newToken, s.ipAddress, s.userAgent,
                nowC + env.maxAge, nowC, nowC⟩,
            some ⟨insertS (eraseS (insertS cm (env.hashFn token) s)
                    (env.hashFn token)) (env.hashFn newToken)
                  ⟨newID, s.userID, env.hashFn newToken, s.ipAddress, s.userAgent,
                    nowC + env.maxAge, nowC, nowC⟩,
                  false, false, false, ccl, chi, cmi + 1⟩⟩) := by
        simp [SMEnv.refresh, SMEnv.verify, SMEnv.verifyFromStorage, SMEnv.destroy,
          SMEnv.create, FakeCache.get, FakeCache.set, FakeCache.delete,
          Storage.getSessionByHash, Storage.deleteSessionByHash,
          hTok, hFound, hNE, hmiss]
      refine ⟨by rw [hRun], hTokNe, hLater, ?_, hEmpty⟩
      rw [hRun]
      simp [SMEnv.verify, SMEnv.verifyFromStorage, FakeCache.get,
        Storage.getSessionByHash, hTok, lookupS_insertS, lookupS_eraseS, hFresh]
    · have hRun : env.refresh
          ⟨storage, some ⟨cm, false, false, false, ccl, chi, cmi⟩⟩
          nowV nowC token newToken newID =
          (.ok ⟨⟨newID, s.userID, env.hashFn newToken, s.ipAddress, s.userAgent,
                nowC + env.maxAge, nowC, nowC⟩, newToken⟩,
           ⟨insertS (eraseS storage (env.hashFn token)) (env.hashFn newToken)
              ⟨newID, s.userID, env.hashFn newToken, s.ipAddress, s.userAgent,
                nowC + env.maxAge, nowC, nowC⟩,
            some ⟨insertS (eraseS cm (env.hashFn token)) (env.hashFn newToken)
                  ⟨newID, s.userID, env.hashFn newToken, s.ipAddress, s.userAgent,
                    nowC + env.maxAge, nowC, nowC⟩,
                  false, false, false, ccl, chi + 1, cmi⟩⟩) := by
        simp [SMEnv.refresh, SMEnv.verify, SMEnv.verifyFromStorage, SMEnv.destroy,
          SMEnv.create, FakeCache.get, FakeCache.set, FakeCache.delete,
          Storage.getSessionByHash, Storage.deleteSessionByHash,
          hTok, hFound, hNE, hhit]
      refine ⟨by rw [hRun], hTokNe, hLater, ?_, hEmpty⟩
      rw [hRun]
      simp [SMEnv.verify, SMEnv.verifyFromStorage, FakeCache.get,
        Storage.getSessionByHash, hTok, lookupS_insertS, lookupS_eraseS, hFresh]

/-- Witness for C3: the theorem applied to a concrete Active session with
a configured coherent cache. -/
theorem refresh_rotates_token_witness :
    (envD.refresh ⟨[(demoHash "a", Session.mk "sid1" "u1" (demoHash "a") "ip" "ua" 10 0 0)],
        some ⟨[], false, false, false, false, 0, 0⟩⟩ 5 6 "a" "b" "sid2").1 =
      .ok ⟨⟨"sid2", "u1", demoHash "b", "ip", "ua", 16, 6, 6⟩, "b"⟩ ∧
    (envD.verify (envD.refresh ⟨[(demoHash "a", Session.mk "sid1" "u1" (demoHash "a") "ip" "ua" 10 0 0)],
        some ⟨[], false, false, false, false, 0, 0⟩⟩ 5 6 "a" "b" "sid2").2 6 "a").1 =
      .error .storageNotFound := by
  have h := refresh_rotates_token envD
    [(demoHash "a", Session.mk "sid1" "u1" (demoHash "a") "ip" "ua" 10 0 0)]
    (some ⟨[], false, false, false, false, 0, 0⟩) 5 6 "a" "b" "sid2"
    (Session.mk "sid1" "u1" (demoHash "a") "ip" "ua" 10 0 0)
    (by decide) rfl (by decide) (by decide) (by decide)
    (by decide)
    (fun cfc hc => by cases hc; exact ⟨rfl, rfl, rfl, Or.inl rfl⟩)
  exact ⟨h.1, h.2.2.2.1⟩

/-! ## C8: malformed password hashes yield decode errors, not `false` -/

/-- C8: `PasswordHasher.Verify` surfaces every decode error of the
encoded hash unchanged — wrong `$`-segment count, unknown algorithm tag,
unparsable numeric parameters and invalid base64 in salt or key each
produce their decode error — and a boolean result (in particular `false`)
is returned only when decoding succeeded, in which case it is exactly the
comparison of the embedded key against the key recomputed with the
embedded parameters and salt. -/
theorem argon2_verify_error_semantics (kdf : KDF) (password encodedHash : String) :
    (∀ e, decodeArgon2Hash encodedHash = .error e →
        Argon2Verify kdf password encodedHash = .error e) ∧
    (∀ d, decodeArgon2Hash encodedHash = .ok d →
        Argon2Verify kdf password encodedHash =
          .ok (decide (d.2.2 = kdf password d.2.1 d.1.iterations d.1.memory
            d.1.parallelism d.1.keyLength))) ∧
    ((splitChar '$' encodedHash.toList).length ≠ 6 →
        Argon2Verify kdf password encodedHash = .error "invalid hash format") ∧
    (∀ p0 tag vP costP saltP hashP,
        splitChar '$' encodedHash.toList = [p0, tag, vP, costP, saltP, hashP] →
        (tag ≠ "argon2id".toList →
          Argon2Verify kdf password encodedHash = .error "unsupported algorithm") ∧
        (tag = "argon2id".toList →
          (scanInt "v=".toList vP = none →
            Argon2Verify kdf password encodedHash = .error "invalid version") ∧
          (∀ v, scanInt "v=".toList vP = some v →
            ∀ mP tP pP, splitChar ',' costP = [mP, tP, pP] →
            (scanNat32 "m=".toList mP = none →
              Argon2Verify kdf password encodedHash = .error "invalid memory parameter") ∧
            (∀ m, scanNat32 "m=".toList mP = some m →
              (scanNat32 "t=".toList tP = none →
                Argon2Verify kdf password encodedHash = .error "invalid iterations parameter") ∧
              (∀ t, scanNat32 "t=".toList tP = some t →
                (scanInt "p=".toList pP = none →
                  Argon2Verify kdf password encodedHash = .error "invalid parallelism parameter") ∧
                (∀ p, scanInt "p=".toList pP = some p →
                  (rawStdDecode saltP = none →
                    Argon2Verify kdf password encodedHash = .error "invalid salt encoding") ∧
                  (∀ salt, rawStdDecode saltP = some salt →
                    rawStdDecode hashP = none →
                    Argon2Verify kdf password encodedHash =
                      .error "invalid hash encoding"))))))) := by
  refine ⟨?_, ?_, ?_, ?_⟩
  · intro e hD
    simp [Argon2Verify, hD]
  · intro d hD
    simp [Argon2Verify, hD]
  · intro hLen
    rcases hp : splitChar '$' encodedHash.toList with
      _ | ⟨a, _ | ⟨b, _ | ⟨c, _ | ⟨d, _ | ⟨e, _ | ⟨f, _ | ⟨g, t⟩⟩⟩⟩⟩⟩⟩ <;>
      first
        | (exact absurd (by rw [hp]; rfl) hLen)
        | (simp at hp; simp [Argon2Verify, decodeArgon2Hash, hp])
  · intro p0 tag vP costP saltP hashP hp
    simp at hp
    constructor
    · intro hTag
      simp at hTag
      simp [Argon2Verify, decodeArgon2Hash, hp, hTag]
    · intro hTag
      simp at hTag
      constructor
      · intro hV
        simp at hV
        simp [Argon2Verify, decodeArgon2Hash, hp, hTag, hV]
      · intro v hV mP tP pP hCost
        simp at hV
        constructor
        · intro hM
          simp at hM
          simp [Argon2Verify, decodeArgon2Hash, hp, hTag, hV, hCost, hM]
        · intro m hM
          simp at hM
          constructor
          · intro hT
            simp at hT
            simp [Argon2Verify, decodeArgon2Hash, hp, hTag, hV, hCost, hM, hT]
          · intro t hT
            simp at hT
            constructor
            · intro hP
              simp at hP
              simp [Argon2Verify, decodeArgon2Hash, hp, hTag, hV, hCost, hM, hT, hP]
            · intro p hP
              simp at hP
              constructor
              · intro hSalt
                simp [Argon2Verify, decodeArgon2Hash, hp, hTag, hV, hCost,
                  hM, hT, hP, hSalt]
              · intro salt hSalt hHash
                simp [Argon2Verify, decodeArgon2Hash, hp, hTag, hV, hCost,
                  hM, hT, hP, hSalt, hHash]

/-- Witness for C8: the theorem applied at a concretely malformed
encoding (one `$`-segment instead of six). -/
theorem argon2_verify_error_semantics_witness :
    (splitChar '$' "garbage".toList).length ≠ 6 ∧
      Argon2Verify kdfZero "pw" "garbage" = .error "invalid hash format" :=
  ⟨by decide,
    (argon2_verify_error_semantics kdfZero "pw" "garbage").2.2.1 (by decide)⟩

end Kuta
